import Mathlib

/-!
Shallow embedding of the `scatter` rendering frontend (Rust sources under
`src/`): the camera/input model from `src/mygame/camera.rs`, the frame-loop
error handling, frame timing and resize logic from `src/mygame.rs`.
Machine floats (`f32`) are modelled as real numbers; fallible Rust calls
(`Option::unwrap`, `Result`) are modelled with `Option` / `Except`.
-/

namespace Scatter

/-- Physical key codes (winit `KeyCode`), restricted to the keys the source
mentions plus a catch-all for any other key. -/
inductive KeyCode where
  | KeyA
  | KeyD
  | KeyS
  | KeyW
  | KeyF
  | Escape
  | otherKey
deriving DecidableEq, Repr

/-- winit `KeyEvent`, reduced to the fields the source reads:
`physical_key` and `state.is_pressed()`. -/
structure KeyEvent where
  physical_key : KeyCode
  pressed : Bool
deriving DecidableEq, Repr

/-- winit `MouseScrollDelta`: wheel deltas arrive either in lines or in
pixels. -/
inductive MouseScrollDelta where
  | lineDelta (x y : ℝ)
  | pixelDelta (x y : ℝ)

/-- winit `WindowEvent`, reduced to the variants the source matches on. -/
inductive WindowEvent where
  | keyboardInput (event : KeyEvent)
  | mouseWheel (delta : MouseScrollDelta)
  | closeRequested
  | redrawRequested
  | resized (width height : ℕ)
  | otherWindowEvent

/-- winit `DeviceEvent`, reduced to the variants the source matches on. -/
inductive DeviceEvent where
  | mouseMotion (delta : ℝ × ℝ)
  | otherDeviceEvent

/-- `Axis` from `src/mygame/camera.rs`: a pair of opposing keys with their
pressed flags. -/
structure Axis where
  negative_pressed : Bool
  negative_button : KeyCode
  positive_pressed : Bool
  positive_button : KeyCode
deriving DecidableEq, Repr

/-- `Axis::new`. -/
def Axis.new (negative_button positive_button : KeyCode) : Axis :=
  { negative_button := negative_button
    positive_button := positive_button
    negative_pressed := false
    positive_pressed := false }

/-- `Axis::process`: update the pressed flag of whichever button the key
event mentions (the positive button is checked first). -/
def Axis.process (a : Axis) (key_event : KeyEvent) : Axis :=
  if key_event.physical_key = a.positive_button then
    { a with positive_pressed := key_event.pressed }
  else if key_event.physical_key = a.negative_button then
    { a with negative_pressed := key_event.pressed }
  else
    a

noncomputable section

/-- `Axis::get`: `(negative_pressed ? -1 : 0) + (positive_pressed ? 1 : 0)`. -/
def Axis.get (a : Axis) : ℝ :=
  (if a.negative_pressed then -1 else 0)
    + (if a.positive_pressed then 1 else 0)

/-- `CameraController` from `src/mygame/camera.rs`. `camera_motion` is the
lifetime-accumulated raw mouse delta. -/
structure CameraController where
  speed : ℝ
  sensitivity : ℝ
  camera_motion : ℝ × ℝ
  horizontal : Axis
  vertical : Axis

/-- `CameraController::new`. -/
def CameraController.new (speed sensitivity : ℝ) : CameraController :=
  { speed := speed
    sensitivity := sensitivity
    camera_motion := (0, 0)
    horizontal := Axis.new .KeyA .KeyD
    vertical := Axis.new .KeyS .KeyW }

/-- `CameraController::process_window_events`: keyboard input feeds both
axes; a line-based mouse-wheel delta multiplies `speed` by `1 + y * 0.1`;
every other event (including pixel-based wheel deltas) is ignored. -/
def CameraController.process_window_events (c : CameraController)
    (window_event : WindowEvent) : CameraController :=
  match window_event with
  | .keyboardInput event =>
      { c with
        horizontal := c.horizontal.process event
        vertical := c.vertical.process event }
  | .mouseWheel (.lineDelta _ y) =>
      { c with speed := c.speed * (1 + y * 0.1) }
  | .mouseWheel (.pixelDelta _ _) => c
  | _ => c

/-- `CameraController::process_device_events`: mouse motion accumulates into
`camera_motion`; every other device event is ignored. -/
def CameraController.process_device_events (c : CameraController)
    (device_event : DeviceEvent) : CameraController :=
  match device_event with
  | .mouseMotion delta =>
      { c with
        camera_motion :=
          (c.camera_motion.1 + delta.1, c.camera_motion.2 + delta.2) }
  | .otherDeviceEvent => c

/-- cgmath `Vector3<f32>` / `Point3<f32>`, with `f32` modelled as ℝ. -/
structure Vec3 where
  x : ℝ
  y : ℝ
  z : ℝ

/-- Componentwise vector addition. -/
def Vec3.add (a b : Vec3) : Vec3 :=
  ⟨a.x + b.x, a.y + b.y, a.z + b.z⟩

/-- Componentwise vector subtraction. -/
def Vec3.sub (a b : Vec3) : Vec3 :=
  ⟨a.x - b.x, a.y - b.y, a.z - b.z⟩

/-- Vector-times-scalar multiplication. -/
def Vec3.mulScalar (v : Vec3) (r : ℝ) : Vec3 :=
  ⟨v.x * r, v.y * r, v.z * r⟩

/-- cgmath `InnerSpace::dot`. -/
def Vec3.dot (a b : Vec3) : ℝ :=
  a.x * b.x + a.y * b.y + a.z * b.z

/-- cgmath `Vector3::cross`. -/
def Vec3.cross (a b : Vec3) : Vec3 :=
  ⟨a.y * b.z - a.z * b.y, a.z * b.x - a.x * b.z, a.x * b.y - a.y * b.x⟩

/-- cgmath `InnerSpace::magnitude` (`sqrt(dot(v,v))`). -/
def Vec3.magnitude (v : Vec3) : ℝ :=
  Real.sqrt (v.dot v)

/-- cgmath `InnerSpace::normalize`: `v * (1 / magnitude(v))`. -/
def Vec3.normalize (v : Vec3) : Vec3 :=
  v.mulScalar (1 / v.magnitude)

/-- cgmath `Vector3::unit_y()`. -/
def Vec3.unit_y : Vec3 := ⟨0, 1, 0⟩

/-- cgmath `Vector3::unit_z()`. -/
def Vec3.unit_z : Vec3 := ⟨0, 0, 1⟩

/-- cgmath `Matrix3::from_angle_y(θ)` applied as a linear map. The
column-major constructor `Matrix3::new(c,0,-s, 0,1,0, s,0,c)` sends `v` to
`(c·x + s·z, y, -s·x + c·z)`. -/
def rotateY (θ : ℝ) (v : Vec3) : Vec3 :=
  ⟨Real.cos θ * v.x + Real.sin θ * v.z,
    v.y,
    -Real.sin θ * v.x + Real.cos θ * v.z⟩

/-- cgmath `Matrix3::from_angle_x(θ)` applied as a linear map. The
column-major constructor `Matrix3::new(1,0,0, 0,c,s, 0,-s,c)` sends `v` to
`(x, c·y - s·z, s·y + c·z)`. -/
def rotateX (θ : ℝ) (v : Vec3) : Vec3 :=
  ⟨v.x,
    Real.cos θ * v.y - Real.sin θ * v.z,
    Real.sin θ * v.y + Real.cos θ * v.z⟩

/-- `Camera` from `src/mygame/camera.rs`. -/
structure Camera where
  eye : Vec3
  direction : Vec3

/-- `Camera::new`: eye at the origin, facing `+Z`. -/
def Camera.new : Camera :=
  { eye := ⟨0, 0, 0⟩, direction := Vec3.unit_z }

/-- `Camera::up`: the fixed world `+Y` axis. -/
def Camera.up (_ : Camera) : Vec3 := Vec3.unit_y

/-- `Camera::right`: `up().cross(direction)`. -/
def Camera.right (c : Camera) : Vec3 :=
  (c.up).cross c.direction

/-- cgmath `Matrix4::look_to_lh(eye, dir, up)`: with `f = normalize(dir)`,
`s = normalize(up × f)`, `u = f × s`, the column-major constructor builds
the matrix whose rows are `(s, -eye·s)`, `(u, -eye·u)`, `(f, -eye·f)`,
`(0,0,0,1)`. -/
def look_to_lh (eye dir up : Vec3) : Matrix (Fin 4) (Fin 4) ℝ :=
  let f := dir.normalize
  let s := (up.cross f).normalize
  let u := f.cross s
  !![s.x, s.y, s.z, -(eye.dot s);
     u.x, u.y, u.z, -(eye.dot u);
     f.x, f.y, f.z, -(eye.dot f);
     0, 0, 0, 1]

/-- `Camera::view`: `look_to_lh(eye, direction, up)`. -/
def Camera.view (c : Camera) : Matrix (Fin 4) (Fin 4) ℝ :=
  look_to_lh c.eye c.direction c.up

open Classical in
/-- cgmath `SquareMatrix::invert`: `None` when the determinant is zero,
otherwise the inverse matrix. -/
def Matrix4.invert (m : Matrix (Fin 4) (Fin 4) ℝ) :
    Option (Matrix (Fin 4) (Fin 4) ℝ) :=
  if m.det = 0 then none else some m⁻¹

/-- `CameraUniform` from `src/mygame/camera.rs`. -/
structure CameraUniform where
  view : Matrix (Fin 4) (Fin 4) ℝ
  inverse_view : Matrix (Fin 4) (Fin 4) ℝ

/-- `Camera::uniform`: packs `view` and `view.invert().unwrap()`; the
`unwrap` of a fallible inversion is modelled as `Option`, `none` being the
panic. -/
def Camera.uniform (c : Camera) : Option CameraUniform :=
  (Matrix4.invert c.view).map fun inv =>
    { view := c.view, inverse_view := inv }

open Classical in
/-- `CameraController::update` (src/mygame/camera.rs, lines 127-142):
recompute `direction` from the accumulated mouse motion, then move the eye
by the normalized movement vector scaled by `speed * delta` — but only
when at least one axis is non-zero. -/
def CameraController.update (ctrl : CameraController) (camera : Camera)
    (delta : ℝ) : Camera :=
  let camera1 : Camera :=
    { camera with
      direction :=
        rotateY (ctrl.camera_motion.1 * ctrl.sensitivity)
          (rotateX (ctrl.camera_motion.2 * ctrl.sensitivity) Vec3.unit_z) }
  let movement :=
    ((((camera1.right.mulScalar ctrl.horizontal.get).add
          (camera1.direction.mulScalar ctrl.vertical.get)).normalize).mulScalar
        ctrl.speed).mulScalar delta
  if ctrl.horizontal.get ≠ 0 ∨ ctrl.vertical.get ≠ 0 then
    { camera1 with eye := camera1.eye.add movement }
  else
    camera1

/-- wgpu `SurfaceError`. -/
inductive SurfaceError where
  | timeout
  | outdated
  | lost
  | outOfMemory
  | otherError
deriving DecidableEq, Repr

/-- What handling one `RedrawRequested` event does to the process. -/
inductive RedrawOutcome where
  | continued
  | panicUnimplemented
  | panicFatal
deriving DecidableEq, Repr

/-- The `RedrawRequested` arm of `MyGame::window_event` (src/mygame.rs,
lines 487-491): `Ok(())` continues the loop, `Err(SurfaceError::Lost)`
hits `todo!("Surface error")`, and any other error hits
`panic!("Error while trying to render: ...")`. -/
def handle_redraw (render_result : Except SurfaceError Unit) : RedrawOutcome :=
  match render_result with
  | .ok _ => .continued
  | .error .lost => .panicUnimplemented
  | .error _ => .panicFatal

/-- The redraw failure handling as the spec's failure-semantics sentences
describe it — transient acquisition errors (`Outdated`, `Timeout`) skip
the frame and continue, `Lost` terminates, any other error is fatal.
Written from the spec's words, for comparison with `handle_redraw`. -/
def handle_redraw_spec (render_result : Except SurfaceError Unit) :
    RedrawOutcome :=
  match render_result with
  | .ok _ => .continued
  | .error .outdated => .continued
  | .error .timeout => .continued
  | .error .lost => .panicUnimplemented
  | .error _ => .panicFatal

/-- A recorded write to `MyGame.prev_time`. -/
inductive TimeEffect where
  | setPrevTime (value : ℝ)

/-- The timing fields of `MyGame`: `start_time` (the `Instant` taken at
startup) and `prev_time`, both in seconds on one monotonic clock. -/
structure TimingState where
  start_time : ℝ
  prev_time : ℝ

/-- The timing part of `MyGame::update_uniform_buffers` (src/mygame.rs,
lines 185-209): read the clock (`now`), compute `time = now - start_time`
and `delta_time = time - prev_time`, and store `prev_time := time`; the
actual uniform-buffer writes are not modelled. The returned trace records
the `prev_time` assignment. -/
def update_uniform_buffers (s : TimingState) (now : ℝ) :
    TimingState × List TimeEffect :=
  let time := now - s.start_time
  ({ s with prev_time := time }, [TimeEffect.setPrevTime time])

/-- The two monotonic-clock readings (`Instant::now()`) one `MyGame::render`
call makes: `t1` at the top of `render` and `t2` inside
`update_uniform_buffers`, with `t1 ≤ t2` for a monotonic clock. -/
structure FrameClock where
  t1 : ℝ
  t2 : ℝ

/-- The timing part of `MyGame::render` (src/mygame.rs, lines 418-424), up
to the point where the frame is acquired: compute `time = t1 - start_time`
and `delta`, call `update_uniform_buffers` (which itself writes
`prev_time`), then assign `prev_time := time` again. The trace records, in
order, every `prev_time` assignment made during the call. -/
def render_timing (s : TimingState) (clock : FrameClock) :
    TimingState × List TimeEffect :=
  let time := clock.t1 - s.start_time
  let step := update_uniform_buffers s clock.t2
  ({ step.1 with prev_time := time },
    step.2 ++ [TimeEffect.setPrevTime time])

/-- The width/height part of wgpu `SurfaceConfiguration`. -/
structure SurfaceConfiguration where
  width : ℕ
  height : ℕ
deriving DecidableEq, Repr

/-- The dimensions of the depth texture. -/
structure DepthTexture where
  width : ℕ
  height : ℕ
deriving DecidableEq, Repr

/-- Modelled from the spec: `Texture::create_depth_texture` lives in
`src/mygame/texture.rs`, which is not among the provided sources; the spec
says the depth buffer "owns a depth-format image sized to match the
surface", so the created texture takes the surface configuration's exact
width and height. -/
def create_depth_texture (config : SurfaceConfiguration) : DepthTexture :=
  { width := config.width, height := config.height }

/-- The surface-configuration/depth-texture part of the `MyGame` state. -/
structure ResizeState where
  surface_config : SurfaceConfiguration
  depth_texture : DepthTexture
deriving DecidableEq, Repr

/-- `MyGame::resize` (src/mygame.rs, lines 401-412): store the new size in
the surface configuration, reconfigure the surface, and recreate the depth
texture from the updated configuration. -/
def resize (s : ResizeState) (width height : ℕ) : ResizeState :=
  let config : SurfaceConfiguration :=
    { s.surface_config with width := width, height := height }
  { s with
    surface_config := config
    depth_texture := create_depth_texture config }

/-- A sequence of `WindowEvent::Resized` notifications applied in order. -/
def applyResizes (s : ResizeState) (events : List (ℕ × ℕ)) : ResizeState :=
  events.foldl (fun st e => resize st e.1 e.2) s

end

/-! ## Theorems -/

/-- Claim C4: for every `Axis` state, `get` equals
`(positive_pressed ? 1 : 0) + (negative_pressed ? -1 : 0)` and lies in
`{-1, 0, 1}`; pressing then releasing the positive key while the negative
flag is clear yields `1` then `0`; holding both keys yields `0`. -/
theorem axis_get_spec (a : Axis) (h : a.negative_pressed = false) :
    (∀ b : Axis, b.get
        = (if b.positive_pressed then 1 else 0)
          + (if b.negative_pressed then -1 else 0)) ∧
    (∀ b : Axis, b.get = -1 ∨ b.get = 0 ∨ b.get = 1) ∧
    (a.process ⟨a.positive_button, true⟩).get = 1 ∧
    ((a.process ⟨a.positive_button, true⟩).process
        ⟨a.positive_button, false⟩).get = 0 ∧
    (∀ b : Axis, b.positive_pressed = true → b.negative_pressed = true →
        b.get = 0) := by
  refine ⟨fun b => add_comm _ _, fun b => ?_, ?_, ?_, fun b hp hn => ?_⟩
  · cases hn : b.negative_pressed <;> cases hp : b.positive_pressed <;>
      simp [Axis.get, hn, hp]
  · simp [Axis.process, Axis.get, h]
  · simp [Axis.process, Axis.get, h]
  · simp [Axis.get, hp, hn]

/-- Witness for C4 at the controller's horizontal axis (`A`/`D` keys). -/
theorem axis_get_spec_witness :
    ((Axis.new .KeyA .KeyD).process ⟨.KeyD, true⟩).get = 1 :=
  (axis_get_spec (Axis.new .KeyA .KeyD) rfl).2.2.1

/-- Helper: repeated line scrolls compound multiplicatively on `speed`. -/
theorem speed_foldl_aux (x : ℝ) (ys : List ℝ) :
    ∀ c : CameraController,
      (ys.foldl
          (fun st yy => st.process_window_events (.mouseWheel (.lineDelta x yy)))
          c).speed
        = c.speed * (ys.map (fun yy => 1 + 0.1 * yy)).prod := by
  induction ys with
  | nil => intro c; simp
  | cons y ys ih =>
      intro c
      have := ih (c.process_window_events (.mouseWheel (.lineDelta x y)))
      simp only [List.foldl_cons, List.map_cons, List.prod_cons] at this ⊢
      rw [this]
      simp only [CameraController.process_window_events]
      ring

/-- Claim C5: a line-based wheel scroll of `y` lines multiplies `speed` by
`1 + 0.1·y` and changes nothing else; `+1` line multiplies by `1.1`, `-1`
line by `0.9`; a sequence of scrolls compounds multiplicatively (the speed
after the sequence is the initial speed times the product of the factors —
no clamping or bounding is applied). -/
theorem mouse_wheel_speed (c : CameraController) (x y : ℝ) (ys : List ℝ) :
    (c.process_window_events (.mouseWheel (.lineDelta x y))).speed
        = c.speed * (1 + 0.1 * y) ∧
    (c.process_window_events (.mouseWheel (.lineDelta x 1))).speed
        = c.speed * 1.1 ∧
    (c.process_window_events (.mouseWheel (.lineDelta x (-1)))).speed
        = c.speed * 0.9 ∧
    (c.process_window_events (.mouseWheel (.lineDelta x y))).sensitivity
        = c.sensitivity ∧
    (c.process_window_events (.mouseWheel (.lineDelta x y))).camera_motion
        = c.camera_motion ∧
    (c.process_window_events (.mouseWheel (.lineDelta x y))).horizontal
        = c.horizontal ∧
    (c.process_window_events (.mouseWheel (.lineDelta x y))).vertical
        = c.vertical ∧
    (ys.foldl
        (fun st yy => st.process_window_events (.mouseWheel (.lineDelta x yy)))
        c).speed
      = c.speed * (ys.map (fun yy => 1 + 0.1 * yy)).prod := by
  refine ⟨?_, ?_, ?_, rfl, rfl, rfl, rfl, speed_foldl_aux x ys c⟩ <;>
    simp only [CameraController.process_window_events] <;> ring

/-- Claim C10: a pixel-based mouse-wheel delta leaves the whole controller
state (speed included) unchanged. -/
theorem pixel_scroll_ignored (c : CameraController) (x y : ℝ) :
    c.process_window_events (.mouseWheel (.pixelDelta x y)) = c := rfl

/-- Claim C1 counterexample: a transient `Outdated` acquisition error does
not skip the frame as the claim states — the handler panics fatally. -/
theorem redraw_outdated_panics :
    handle_redraw (.error .outdated) = .panicFatal ∧
    handle_redraw (.error .outdated) ≠ handle_redraw_spec (.error .outdated) ∧
    handle_redraw_spec (.error .outdated) = .continued := by decide

/-- Claim C1 (amended): no acquisition error is tolerated by skipping —
every surface error terminates the process (`Lost` through the
unimplemented-recovery `todo!`, every other error through a fatal panic);
only a successful render continues the loop. -/
theorem redraw_all_errors_fatal :
    (∀ e : SurfaceError, handle_redraw (.error e) ≠ .continued) ∧
    handle_redraw (.error .lost) = .panicUnimplemented ∧
    (∀ e : SurfaceError, e ≠ .lost →
        handle_redraw (.error e) = .panicFatal) ∧
    handle_redraw (.ok ()) = .continued := by
  refine ⟨fun e => by cases e <;> decide, rfl, fun e he => ?_, rfl⟩
  cases e <;> first | decide | exact absurd rfl he

/-- Witness for C1 (amended) at the `Timeout` error. -/
theorem redraw_all_errors_fatal_witness :
    handle_redraw (.error .timeout) = .panicFatal :=
  redraw_all_errors_fatal.2.2.1 .timeout (by decide)

/-- Claim C2: contrary to the claim, one `render` invocation writes
`prev_time` twice — once inside `update_uniform_buffers` (to
`t2 - start_time`) and once at the end of `render`'s timing prologue (to
`t1 - start_time`, overwriting the first write with the earlier clock
reading); both writes happen before frame acquisition is even attempted. -/
theorem render_writes_prev_time_twice (s : TimingState) (clock : FrameClock) :
    (render_timing s clock).2
        = [TimeEffect.setPrevTime (clock.t2 - s.start_time),
           TimeEffect.setPrevTime (clock.t1 - s.start_time)] ∧
    (render_timing s clock).2.length = 2 ∧
    ¬ (render_timing s clock).2.length ≤ 1 ∧
    (render_timing s clock).1.prev_time = clock.t1 - s.start_time := by
  refine ⟨rfl, rfl, ?_, rfl⟩
  show ¬ (2 : ℕ) ≤ 1
  decide

/-- Helper: every resize step re-establishes the depth-matches-surface
invariant, so it is preserved along any sequence of resizes. -/
theorem applyResizes_aux (events : List (ℕ × ℕ)) :
    ∀ s : ResizeState,
      s.depth_texture.width = s.surface_config.width →
      s.depth_texture.height = s.surface_config.height →
      (applyResizes s events).depth_texture.width
          = (applyResizes s events).surface_config.width ∧
      (applyResizes s events).depth_texture.height
          = (applyResizes s events).surface_config.height := by
  induction events with
  | nil => intro s h1 h2; exact ⟨h1, h2⟩
  | cons e es ih => intro s _ _; exact ih (resize s e.1 e.2) rfl rfl

/-- Claim C9: one resize recreates the depth texture at exactly the surface
configuration's new dimensions, and after each resize in any non-empty
sequence of resize events the depth texture's dimensions equal the surface
configuration's dimensions — no stale depth buffer is ever observable. -/
theorem resize_depth_matches (s : ResizeState) (e : ℕ × ℕ)
    (events : List (ℕ × ℕ)) :
    ((resize s e.1 e.2).depth_texture.width
        = (resize s e.1 e.2).surface_config.width ∧
     (resize s e.1 e.2).depth_texture.height
        = (resize s e.1 e.2).surface_config.height) ∧
    ((applyResizes s (e :: events)).depth_texture.width
        = (applyResizes s (e :: events)).surface_config.width ∧
     (applyResizes s (e :: events)).depth_texture.height
        = (applyResizes s (e :: events)).surface_config.height) :=
  ⟨⟨rfl, rfl⟩, applyResizes_aux events (resize s e.1 e.2) rfl rfl⟩

/-- Claim C7: with zero accumulated mouse delta and no keys pressed, one
update step leaves the initial camera (eye at origin, direction `+Z`)
entirely unchanged. -/
theorem update_idle_fixes_camera (ctrl : CameraController) (delta : ℝ)
    (hm : ctrl.camera_motion = (0, 0))
    (hhp : ctrl.horizontal.positive_pressed = false)
    (hhn : ctrl.horizontal.negative_pressed = false)
    (hvp : ctrl.vertical.positive_pressed = false)
    (hvn : ctrl.vertical.negative_pressed = false) :
    ctrl.update Camera.new delta = Camera.new := by
  have hg1 : ctrl.horizontal.get = 0 := by simp [Axis.get, hhp, hhn]
  have hg2 : ctrl.vertical.get = 0 := by simp [Axis.get, hvp, hvn]
  simp only [CameraController.update, hm, hg1, hg2]
  rw [if_neg (by simp)]
  simp [Camera.new, rotateY, rotateX, Vec3.unit_z]

/-- Witness for C7 at the freshly constructed controller of `MyGame::new`
(speed 5, sensitivity 0.003) and `delta = 1`. -/
theorem update_idle_fixes_camera_witness :
    (CameraController.new 5 (3 / 1000)).update Camera.new 1 = Camera.new :=
  update_idle_fixes_camera (CameraController.new 5 (3 / 1000)) 1 rfl rfl rfl
    rfl rfl

/-- Claim C6: with horizontal axis `+1` (positive key held, negative key
not), vertical axis `0`, and zero accumulated mouse delta (so the
recomputed direction is `+Z`), one update step displaces the eye by
`(speed·delta)` times `right = up × direction`, and the displacement's
magnitude is exactly `speed·delta`. -/
theorem update_strafe_right (ctrl : CameraController) (cam : Camera)
    (delta : ℝ)
    (hm : ctrl.camera_motion = (0, 0))
    (hhp : ctrl.horizontal.positive_pressed = true)
    (hhn : ctrl.horizontal.negative_pressed = false)
    (hvp : ctrl.vertical.positive_pressed = false)
    (hvn : ctrl.vertical.negative_pressed = false)
    (hsd : 0 ≤ ctrl.speed * delta) :
    (ctrl.update cam delta).direction = Vec3.unit_z ∧
    (ctrl.update cam delta).right = Vec3.unit_y.cross Vec3.unit_z ∧
    (ctrl.update cam delta).eye
      = cam.eye.add
          (((ctrl.update cam delta).right).mulScalar (ctrl.speed * delta)) ∧
    ((ctrl.update cam delta).eye.sub cam.eye).magnitude
      = ctrl.speed * delta := by
  have hg1 : ctrl.horizontal.get = 1 := by simp [Axis.get, hhp, hhn]
  have hg2 : ctrl.vertical.get = 0 := by simp [Axis.get, hvp, hvn]
  have hu : ctrl.update cam delta
      = { eye := cam.eye.add ⟨1 * ctrl.speed * delta, 0 * ctrl.speed * delta,
            0 * ctrl.speed * delta⟩,
          direction := ⟨0, 0, 1⟩ } := by
    simp only [CameraController.update, hm, hg1, hg2]
    rw [if_pos (Or.inl one_ne_zero)]
    simp only [rotateY, rotateX, Vec3.unit_z, Vec3.unit_y, Camera.right,
      Camera.up, Vec3.cross, Vec3.add, Vec3.mulScalar, Vec3.normalize,
      Vec3.magnitude, Vec3.dot, Real.cos_zero, Real.sin_zero]
    norm_num [Real.sqrt_one]
  refine ⟨by rw [hu]; rfl, ?_, ?_, ?_⟩
  · rw [hu]
    simp [Camera.right, Camera.up, Vec3.cross, Vec3.unit_y, Vec3.unit_z]
  · rw [hu]
    simp only [Camera.right, Camera.up, Vec3.cross, Vec3.unit_y, Vec3.unit_z,
      Vec3.mulScalar, Vec3.add]
    norm_num
  · rw [hu]
    have hdisp :
        (Vec3.sub
          (cam.eye.add ⟨1 * ctrl.speed * delta, 0 * ctrl.speed * delta,
            0 * ctrl.speed * delta⟩) cam.eye)
          = (⟨ctrl.speed * delta, 0, 0⟩ : Vec3) := by
      simp only [Vec3.add, Vec3.sub, Vec3.mk.injEq]
      refine ⟨by ring, by ring, by ring⟩
    rw [hdisp]
    simp only [Vec3.magnitude, Vec3.dot]
    rw [show ctrl.speed * delta * (ctrl.speed * delta) + 0 * 0 + 0 * 0
        = (ctrl.speed * delta) ^ 2 by ring]
    exact Real.sqrt_sq hsd

/-- Witness for C6: a controller holding the `D` key (speed 5, delta 2)
moves the initial camera's eye by magnitude exactly `5 * 2`. -/
theorem update_strafe_right_witness :
    (((⟨5, 3 / 1000, (0, 0), ⟨false, .KeyA, true, .KeyD⟩,
          Axis.new .KeyS .KeyW⟩ : CameraController).update
        Camera.new 2).eye.sub Camera.new.eye).magnitude = 5 * 2 :=
  (update_strafe_right
    ⟨5, 3 / 1000, (0, 0), ⟨false, .KeyA, true, .KeyD⟩, Axis.new .KeyS .KeyW⟩
    Camera.new 2 rfl rfl rfl rfl rfl (by norm_num)).2.2.2

/-- Helper: when both axes read zero, one update step only rewrites the
direction from the accumulated mouse motion and leaves the eye alone. -/
theorem update_direction_formula (ctrl : CameraController) (cam : Camera)
    (delta : ℝ) (h1 : ctrl.horizontal.get = 0) (h2 : ctrl.vertical.get = 0) :
    ctrl.update cam delta
      = { cam with direction :=
            (rotateY (ctrl.camera_motion.1 * ctrl.sensitivity)
              (rotateX (ctrl.camera_motion.2 * ctrl.sensitivity)
                Vec3.unit_z)) } := by
  simp only [CameraController.update, h1, h2]
  rw [if_neg (by simp)]

/-- Claim C3: no pitch guard exists. A single mouse-motion event of
`(0, 500π/3)` at the startup sensitivity `0.003` accumulates a pitch of
exactly `π/2` radians, after which one update step sets
`direction = (0,-1,0)` — collinear with `up` (their cross product is the
zero vector) — and on that camera the view matrix is singular, so the
uniform derivation's inversion fails (`invert` returns `None`; the Rust
`unwrap` of it panics). -/
theorem pitch_unguarded_collinear :
    ((CameraController.new 5 (3 / 1000)).process_device_events
        (.mouseMotion (0, 500 * Real.pi / 3))).update Camera.new 0.016
      = { eye := ⟨0, 0, 0⟩, direction := ⟨0, -1, 0⟩ } ∧
    Vec3.unit_y.cross ⟨0, -1, 0⟩ = (⟨0, 0, 0⟩ : Vec3) ∧
    (Camera.mk ⟨0, 0, 0⟩ ⟨0, -1, 0⟩).uniform = none := by
  refine ⟨?_, by simp [Vec3.cross, Vec3.unit_y], ?_⟩
  · rw [update_direction_formula _ _ _
      (by simp [CameraController.process_device_events, CameraController.new,
        Axis.new, Axis.get])
      (by simp [CameraController.process_device_events, CameraController.new,
        Axis.new, Axis.get])]
    have hm1 : ((CameraController.new 5 (3 / 1000)).process_device_events
        (.mouseMotion (0, 500 * Real.pi / 3))).camera_motion.1
          * ((CameraController.new 5 (3 / 1000)).process_device_events
        (.mouseMotion (0, 500 * Real.pi / 3))).sensitivity = 0 := by
      simp [CameraController.process_device_events, CameraController.new]
    have hm2 : ((CameraController.new 5 (3 / 1000)).process_device_events
        (.mouseMotion (0, 500 * Real.pi / 3))).camera_motion.2
          * ((CameraController.new 5 (3 / 1000)).process_device_events
        (.mouseMotion (0, 500 * Real.pi / 3))).sensitivity = Real.pi / 2 := by
      simp only [CameraController.process_device_events, CameraController.new]
      norm_num
      ring
    rw [hm1, hm2]
    simp [rotateY, rotateX, Vec3.unit_z, Camera.new, Real.cos_pi_div_two,
      Real.sin_pi_div_two]
  · have hview : (Camera.mk ⟨0, 0, 0⟩ ⟨0, -1, 0⟩).view.det = 0 := by
      apply Matrix.det_eq_zero_of_row_eq_zero 0
      intro j
      fin_cases j <;>
        simp [Camera.view, look_to_lh, Camera.up, Vec3.normalize,
          Vec3.magnitude, Vec3.dot, Vec3.cross, Vec3.mulScalar, Vec3.unit_y]
    simp [Camera.uniform, Matrix4.invert, hview]

/-- Helper: the initial camera's view matrix is the identity. -/
theorem view_new_eq_one : Camera.new.view = 1 := by
  ext i j
  fin_cases i <;> fin_cases j <;>
    simp [Camera.view, Camera.new, Camera.up, look_to_lh, Vec3.normalize,
      Vec3.magnitude, Vec3.dot, Vec3.cross, Vec3.mulScalar, Vec3.unit_y,
      Vec3.unit_z, Matrix.one_apply, Real.sqrt_one, Matrix.vecHead,
      Matrix.vecTail]

/-- Claim C8: for every camera whose view matrix is invertible, the uniform
derivation succeeds and returns `view` and `inverse_view` satisfying
`view * inverse_view = 1`; in particular every entry of
`view * inverse_view - identity` has absolute value at most `1e-4` (in the
real-number model the deviation is exactly zero). -/
theorem uniform_inverse_view (c : Camera) (h : c.view.det ≠ 0) :
    ∃ u : CameraUniform, c.uniform = some u ∧
      u.view * u.inverse_view = 1 ∧
      ∀ i j : Fin 4, |(u.view * u.inverse_view - 1) i j| ≤ 1e-4 := by
  have hmul : c.view * c.view⁻¹ = 1 :=
    Matrix.mul_nonsing_inv _ (isUnit_iff_ne_zero.mpr h)
  refine ⟨{ view := c.view, inverse_view := c.view⁻¹ }, ?_, hmul, ?_⟩
  · simp [Camera.uniform, Matrix4.invert, h]
  · intro i j
    rw [hmul]
    simp
    norm_num

/-- Witness for C8 at the initial camera, whose view matrix is the
identity and hence invertible. -/
theorem uniform_inverse_view_witness :
    ∃ u : CameraUniform, Camera.new.uniform = some u ∧
      u.view * u.inverse_view = 1 ∧
      ∀ i j : Fin 4, |(u.view * u.inverse_view - 1) i j| ≤ 1e-4 :=
  uniform_inverse_view Camera.new (by rw [view_new_eq_one]; simp)

end Scatter
